import Mathlib

/-!
Verification of the uboot bootloader facade (`bootloader/uboot.go`): a shallow
embedding of its path resolution, option processing, install logic, and boot
variable get/set, together with theorems settling the specified properties.

Conventions of the embedding:
* Go's `filepath.Join` / `filepath.Clean` / `filepath.Dir` (Unix rules) are
  embedded as `goJoin` / `goClean` / `goDir` operating on the character list
  of the path.
* `ubootBase.dir` panics in Go when `rootdir` is empty; the embedding returns
  `Option String`, with `none` standing for the panic.
* Filesystem effects are made explicit: `InstallBootConfig` takes an
  `FsWorld` describing the outcome of each external I/O call and returns the
  Go result together with the ordered list of filesystem actions performed
  and the final facade state.
* The external environment store (`ubootenv`, not part of these sources) is
  modelled from the spec as an association list of variables.
-/

namespace Uboot

/-! ## Go path manipulation (`path/filepath`, Unix) -/

/-- Split a character list into path components at `/` characters. -/
def splitSlash : List Char → List (List Char)
  | [] => [[]]
  | c :: rest =>
    let r := splitSlash rest
    if c = '/' then [] :: r
    else
      match r with
      | [] => [[c]]
      | h :: t => (c :: h) :: t

/-- One step of Go's `Clean`: process a single path component against the
output stack, with `rooted` telling whether the path is absolute. -/
def cleanStep (rooted : Bool) (out : List (List Char)) (c : List Char) :
    List (List Char) :=
  if c = [] ∨ c = ['.'] then out
  else if c = ['.', '.'] then
    if rooted then out.dropLast
    else if out ≠ [] ∧ out.getLast? ≠ some ['.', '.'] then out.dropLast
    else out ++ [['.', '.']]
  else out ++ [c]

/-- Interleave path components with `/`. -/
def joinComps : List (List Char) → List Char
  | [] => []
  | [x] => x
  | x :: xs => x ++ '/' :: joinComps xs

/-- Go's `filepath.Clean` for Unix paths. -/
def goClean (path : String) : String :=
  match path.data with
  | [] => "."
  | c :: rest =>
    let rooted := c = '/'
    let out := (splitSlash (c :: rest)).foldl (cleanStep rooted) []
    if rooted then String.mk ('/' :: joinComps out)
    else if out = [] then "."
    else String.mk (joinComps out)

/-- Go's `filepath.Join`: skip leading empty elements, join the rest with
`/`, and `Clean` the result; all-empty input yields the empty string. -/
def goJoin (elems : List String) : String :=
  match elems.dropWhile (· = "") with
  | [] => ""
  | es => goClean (String.intercalate "/" es)

/-- Go's `filepath.Dir`: drop the final path element (the trailing run of
non-separator characters), then `Clean` what is left. -/
def goDir (path : String) : String :=
  goClean (String.mk ((path.data.reverse.dropWhile (· ≠ '/')).reverse))

/-! ## Data model: options and path state -/

/-- The bootloader role carried by `Options` (`RoleSole`, `RoleRunMode`,
`RoleRecovery` in the source). -/
inductive BlRole
  | sole
  | runMode
  | recovery
deriving DecidableEq, Repr

/-- The `Options` fields consulted by the uboot bootloader. -/
structure Options where
  Role : BlRole
  NoSlashBoot : Bool
deriving DecidableEq, Repr

/-- The shared path state `ubootBase`. -/
structure ubootBase where
  rootdir : String
  basedir : String
  ubootEnvFileName : String
deriving DecidableEq, Repr

/-- `ubootBase.dir`: join of rootdir and basedir; `none` models the Go panic
on an empty rootdir. -/
def ubootBase.dir (u : ubootBase) : Option String :=
  if u.rootdir = "" then none
  else some (goJoin [u.rootdir, u.basedir])

/-- `ubootBase.rootDir` returns the rootdir unchanged. -/
def ubootBase.rootDir (u : ubootBase) : String :=
  u.rootdir

/-- `ubootBase.envFile`: join of the directory and the env file name; `none`
propagates the panic from `dir`. -/
def ubootBase.envFile (u : ubootBase) : Option String :=
  u.dir.map fun d => goJoin [d, u.ubootEnvFileName]

/-! ## Variant strategies: redundant and non-redundant env -/

/-- The two `ubootCommon` implementations: `ubootRedundEnv` and
`ubootNoRedundEnv`. -/
inductive Variant
  | redund
  | noredund
deriving DecidableEq, Repr

/-- `ubootRedundEnv.name`. -/
def ubootRedundEnvName : String := "uboot"

/-- `ubootNoRedundEnv.name`. -/
def ubootNoRedundEnvName : String := "uboot-nr"

/-- `ubootRedundEnv.setDefaults`. -/
def ubootRedundEnvSetDefaults (u : ubootBase) : ubootBase :=
  { u with basedir := "/boot/uboot/", ubootEnvFileName := "uboot.env" }

/-- `ubootNoRedundEnv.setDefaults`. -/
def ubootNoRedundEnvSetDefaults (u : ubootBase) : ubootBase :=
  { u with basedir := "/boot/uboot-nr/", ubootEnvFileName := "uboot.env" }

/-- `ubootRedundEnv.processBlOpts`: the Go `switch` whose first case sets the
basedir and falls through into the second case's filename assignment. -/
def ubootRedundEnvProcessBlOpts (u : ubootBase) (blOpts : Option Options) :
    ubootBase :=
  match blOpts with
  | none => u
  | some o =>
    if o.Role == BlRole.recovery || o.NoSlashBoot then
      { u with basedir := "/uboot/ubuntu/", ubootEnvFileName := "boot.sel" }
    else if o.Role == BlRole.runMode then
      { u with ubootEnvFileName := "boot.sel" }
    else u

/-- `ubootNoRedundEnv.processBlOpts`: same shape with the `uboot-nr` path. -/
def ubootNoRedundEnvProcessBlOpts (u : ubootBase) (blOpts : Option Options) :
    ubootBase :=
  match blOpts with
  | none => u
  | some o =>
    if o.Role == BlRole.recovery || o.NoSlashBoot then
      { u with basedir := "/uboot-nr/ubuntu/", ubootEnvFileName := "boot.sel" }
    else if o.Role == BlRole.runMode then
      { u with ubootEnvFileName := "boot.sel" }
    else u

/-- Variant dispatch for `name()`. -/
def Variant.name : Variant → String
  | .redund => ubootRedundEnvName
  | .noredund => ubootNoRedundEnvName

/-- Variant dispatch for `setDefaults()`. -/
def Variant.setDefaults : Variant → ubootBase → ubootBase
  | .redund => ubootRedundEnvSetDefaults
  | .noredund => ubootNoRedundEnvSetDefaults

/-- Variant dispatch for `processBlOpts()`. -/
def Variant.processBlOpts : Variant → ubootBase → Option Options → ubootBase
  | .redund => ubootRedundEnvProcessBlOpts
  | .noredund => ubootNoRedundEnvProcessBlOpts

/-- Construction shared by `newUboot` and `newUbootNoRedundEnv`: start from a
zero-valued base with the given rootdir, apply defaults, then the options. -/
def newUbootVariant (v : Variant) (rootdir : String) (blOpts : Option Options) :
    ubootBase :=
  v.processBlOpts (v.setDefaults { rootdir := rootdir, basedir := "", ubootEnvFileName := "" }) blOpts

/-- `newUboot`. -/
def newUboot (rootdir : String) (blOpts : Option Options) : ubootBase :=
  newUbootVariant .redund rootdir blOpts

/-- `newUbootNoRedundEnv`. -/
def newUbootNoRedundEnv (rootdir : String) (blOpts : Option Options) : ubootBase :=
  newUbootVariant .noredund rootdir blOpts

/-! ## Spec-side path table (for the refinement claim C1) -/

/-- Modelled from the spec: the per-variant default basedir of the table in
section 4.2. -/
def specDefaultBasedir : Variant → String
  | .redund => "/boot/uboot/"
  | .noredund => "/boot/uboot-nr/"

/-- Modelled from the spec: the per-variant direct-partition basedir of
section 4.2. -/
def specDirectBasedir : Variant → String
  | .redund => "/uboot/ubuntu/"
  | .noredund => "/uboot-nr/ubuntu/"

/-- Modelled from the spec: the precedence table of section 4.2 resolving
(basedir, filename) from the options. -/
def specResolved (v : Variant) (blOpts : Option Options) : String × String :=
  match blOpts with
  | none => (specDefaultBasedir v, "uboot.env")
  | some o =>
    if o.Role == BlRole.recovery || o.NoSlashBoot then
      (specDirectBasedir v, "boot.sel")
    else if o.Role == BlRole.runMode then
      (specDefaultBasedir v, "boot.sel")
    else (specDefaultBasedir v, "uboot.env")

/-- CLAIM C1. For every options value (including nil) and both variants, the
constructed facade's basedir and filename match the spec's precedence table,
and at rootdir `/r` the resolved environment file is the bit-exact
concatenation rootdir ++ basedir ++ filename from that table. -/
theorem construction_resolves_paths_per_spec_table
    (v : Variant) (blOpts : Option Options) (r : String) :
    (newUbootVariant v r blOpts).basedir = (specResolved v blOpts).1 ∧
    (newUbootVariant v r blOpts).ubootEnvFileName = (specResolved v blOpts).2 ∧
    (newUbootVariant v "/r" blOpts).envFile =
      some ("/r" ++ (specResolved v blOpts).1 ++ (specResolved v blOpts).2) := by
  cases v <;> rcases blOpts with _ | ⟨role, nsb⟩ <;>
    first
      | exact ⟨rfl, rfl, rfl⟩
      | (cases role <;> cases nsb <;> exact ⟨rfl, rfl, rfl⟩)

/-! ## The environment store -/

/-- Modelled from the spec: the external Environment Store collaborator
(package `ubootenv`, whose sources are not part of this repository). Per
section 6 it is a mapping from variable names to string values; per sections
7 and 8 reading a name never set returns the empty string. Embedded as an
association list with unique keys maintained by `set`. -/
structure Env where
  vars : List (String × String)
deriving DecidableEq, Repr

/-- Lookup in the association list. -/
def lookupVar : List (String × String) → String → Option String
  | [], _ => none
  | (k, v) :: rest, n => if k = n then some v else lookupVar rest n

/-- Modelled from the spec: `store.get(key)` returns the stored value, the
empty string when the key is unset. -/
def Env.get (e : Env) (n : String) : String :=
  (lookupVar e.vars n).getD ""

/-- Update or insert one binding in the association list. -/
def updateVar : List (String × String) → String → String → List (String × String)
  | [], k, v => [(k, v)]
  | (k', v') :: rest, k, v =>
    if k' = k then (k, v) :: rest else (k', v') :: updateVar rest k v

/-- Modelled from the spec: `store.set(key, value)`. -/
def Env.set (e : Env) (k v : String) : Env :=
  ⟨updateVar e.vars k v⟩

/-- One iteration of the `SetBootVars` loop: skip a key already holding the
requested value, otherwise set it and mark the session dirty. -/
def setVarsStep (acc : Env × Bool) (kv : String × String) : Env × Bool :=
  if acc.1.get kv.1 = kv.2 then acc
  else (acc.1.set kv.1 kv.2, true)

/-- `uboot.SetBootVars` after the store has been opened successfully: fold
the requested entries over the store, then save once exactly when some entry
was dirty. Returns the resulting store and the number of save invocations. -/
def SetBootVars (e : Env) (values : List (String × String)) : Env × Nat :=
  let r := values.foldl setVarsStep (e, false)
  (r.1, if r.2 then 1 else 0)

/-- `uboot.GetBootVars` after the store has been opened successfully: one
entry per requested name, each bound to the store's current value. -/
def GetBootVars (e : Env) (names : List String) : List (String × String) :=
  names.map fun n => (n, e.get n)

/-! ### Store lemmas -/

theorem lookupVar_updateVar_self (l : List (String × String)) (k v : String) :
    lookupVar (updateVar l k v) k = some v := by
  induction l with
  | nil => simp [updateVar, lookupVar]
  | cons hd tl ih =>
    rcases hd with ⟨k', v'⟩
    by_cases h : k' = k
    · simp [updateVar, lookupVar, h]
    · simp [updateVar, lookupVar, h, ih]

theorem lookupVar_updateVar_other (l : List (String × String)) (k v n : String)
    (hne : n ≠ k) : lookupVar (updateVar l k v) n = lookupVar l n := by
  have hkn : ¬k = n := fun h => hne h.symm
  induction l with
  | nil => simp [updateVar, lookupVar, hkn]
  | cons hd tl ih =>
    rcases hd with ⟨k', v'⟩
    by_cases h : k' = k
    · subst h
      simp [updateVar, lookupVar, hkn]
    · by_cases h2 : k' = n
      · subst h2
        simp [updateVar, lookupVar, hne]
      · simp [updateVar, lookupVar, h, h2, ih]

theorem Env.get_set_self (e : Env) (k v : String) : (e.set k v).get k = v := by
  simp [Env.get, Env.set, lookupVar_updateVar_self]

theorem Env.get_set_other (e : Env) (k v n : String) (hne : n ≠ k) :
    (e.set k v).get n = e.get n := by
  simp [Env.get, Env.set, lookupVar_updateVar_other _ _ _ _ hne]

/-- Once the dirty flag is set, the `SetBootVars` fold never clears it. -/
theorem setVars_fold_dirty_mono (values : List (String × String)) (e : Env) :
    (values.foldl setVarsStep (e, true)).2 = true := by
  induction values generalizing e with
  | nil => rfl
  | cons kv rest ih =>
    rw [List.foldl_cons]
    by_cases h : e.get kv.1 = kv.2
    · simpa [setVarsStep, h] using ih e
    · simpa [setVarsStep, h] using ih (e.set kv.1 kv.2)

/-- The dirty flag after the fold is exactly "some requested entry differed
from the value initially stored". -/
theorem setVars_fold_dirty (values : List (String × String)) (e : Env) (d : Bool) :
    (values.foldl setVarsStep (e, d)).2 =
      (d || values.any fun kv => e.get kv.1 != kv.2) := by
  induction values generalizing e d with
  | nil => simp
  | cons kv rest ih =>
    rw [List.foldl_cons]
    by_cases h : e.get kv.1 = kv.2
    · simp [setVarsStep, h, ih]
    · simp [setVarsStep, h, setVars_fold_dirty_mono, bne_iff_ne]

/-- A key not among the requested names keeps its stored value through the
`SetBootVars` fold. -/
theorem setVars_fold_get_notmem (values : List (String × String)) (e : Env)
    (d : Bool) (k : String) (hk : k ∉ values.map Prod.fst) :
    (values.foldl setVarsStep (e, d)).1.get k = e.get k := by
  induction values generalizing e d with
  | nil => rfl
  | cons kv rest ih =>
    rw [List.map_cons, List.mem_cons, not_or] at hk
    obtain ⟨hne, hrest⟩ := hk
    rw [List.foldl_cons]
    by_cases h : e.get kv.1 = kv.2
    · simp only [setVarsStep, h, if_pos rfl]
      simpa [setVarsStep, h] using ih e d hrest
    · have := ih (e.set kv.1 kv.2) true hrest
      simpa [setVarsStep, h, Env.get_set_other _ _ _ _ hne] using this

/-- With unique keys, every requested entry ends the `SetBootVars` fold
holding its requested value. -/
theorem setVars_fold_get_mem (values : List (String × String)) (e : Env)
    (d : Bool) (kv : String × String) (hmem : kv ∈ values)
    (hnd : (values.map Prod.fst).Nodup) :
    (values.foldl setVarsStep (e, d)).1.get kv.1 = kv.2 := by
  induction values generalizing e d with
  | nil => cases hmem
  | cons hd rest ih =>
    rw [List.map_cons, List.nodup_cons] at hnd
    rcases hnd with ⟨hhd, hndrest⟩
    rw [List.foldl_cons]
    rcases List.mem_cons.mp hmem with heq | hrest
    · subst heq
      by_cases h : e.get kv.1 = kv.2
      · have := setVars_fold_get_notmem rest e d kv.1 hhd
        simpa [setVarsStep, h] using this.trans h
      · have := setVars_fold_get_notmem rest (e.set kv.1 kv.2) true kv.1 hhd
        simpa [setVarsStep, h] using this.trans (Env.get_set_self e kv.1 kv.2)
    · by_cases h : e.get hd.1 = hd.2
      · simpa [setVarsStep, h] using ih e d hrest hndrest
      · simpa [setVarsStep, h] using ih (e.set hd.1 hd.2) true hrest hndrest

/-- When every requested entry already holds its requested value, the fold
leaves the store (and flag) untouched. -/
theorem setVars_fold_unchanged (values : List (String × String)) (e : Env)
    (d : Bool) (hall : ∀ kv ∈ values, e.get kv.1 = kv.2) :
    values.foldl setVarsStep (e, d) = (e, d) := by
  induction values with
  | nil => rfl
  | cons kv rest ih =>
    have hhd : e.get kv.1 = kv.2 := hall kv (List.mem_cons_self kv rest)
    rw [List.foldl_cons]
    simp only [setVarsStep, hhd, if_pos rfl]
    exact ih fun p hp => hall p (List.mem_cons_of_mem kv hp)

/-- CLAIM C2. `SetBootVars` saves exactly once when some requested key
differs from its stored value and zero times otherwise; it sets the
requested keys to their requested values and leaves every other key alone;
if nothing differed the store is returned untouched; and an immediate second
call with the identical map performs zero saves (so two identical calls save
once, then zero, whenever the first call found a difference). -/
theorem setBootVars_minimizes_writes (e : Env) (values : List (String × String))
    (hnd : (values.map Prod.fst).Nodup) :
    ((SetBootVars e values).2 =
      if values.any (fun kv => e.get kv.1 != kv.2) then 1 else 0) ∧
    (∀ kv ∈ values, (SetBootVars e values).1.get kv.1 = kv.2) ∧
    (∀ k, k ∉ values.map Prod.fst →
      (SetBootVars e values).1.get k = e.get k) ∧
    ((∀ kv ∈ values, e.get kv.1 = kv.2) →
      (SetBootVars e values).1 = e ∧ (SetBootVars e values).2 = 0) ∧
    (SetBootVars (SetBootVars e values).1 values).2 = 0 ∧
    ((values.any fun kv => e.get kv.1 != kv.2) = true →
      (SetBootVars e values).2 = 1 ∧
        (SetBootVars (SetBootVars e values).1 values).2 = 0) := by
  have hdirty := setVars_fold_dirty values e false
  have hsecond : (SetBootVars (SetBootVars e values).1 values).2 = 0 := by
    have hall : ∀ kv ∈ values, (SetBootVars e values).1.get kv.1 = kv.2 :=
      fun kv hkv => setVars_fold_get_mem values e false kv hkv hnd
    simp only [SetBootVars, setVars_fold_dirty, Bool.false_or]
    have : (values.any fun kv =>
        (values.foldl setVarsStep (e, false)).1.get kv.1 != kv.2) = false := by
      rw [List.any_eq_false]
      intro kv hkv
      simpa [bne_iff_ne] using hall kv hkv
    simp [this]
  refine ⟨?_, ?_, ?_, ?_, hsecond, ?_⟩
  · simp only [SetBootVars, hdirty, Bool.false_or]
  · exact fun kv hkv => setVars_fold_get_mem values e false kv hkv hnd
  · exact fun k hk => setVars_fold_get_notmem values e false k hk
  · intro hall
    have := setVars_fold_unchanged values e false hall
    constructor <;> simp [SetBootVars, this]
  · intro hy
    refine ⟨?_, hsecond⟩
    simp [SetBootVars, hdirty, hy]

/-- Witness for C2 at a concrete store and request. -/
theorem setBootVars_minimizes_writes_witness :
    (SetBootVars ⟨[("snap_mode", "")]⟩ [("snap_mode", "try")]).2 = 1 ∧
      (SetBootVars (SetBootVars ⟨[("snap_mode", "")]⟩ [("snap_mode", "try")]).1
        [("snap_mode", "try")]).2 = 0 :=
  (setBootVars_minimizes_writes ⟨[("snap_mode", "")]⟩ [("snap_mode", "try")]
    (by simp)).2.2.2.2.2 (by decide)

/-- CLAIM C6. `GetBootVars` (with the store open) returns exactly the
requested names in order, each requested name bound to the store's current
value; a name stored in the store is bound to that stored value and an unset
name is bound to the empty string, never an error. -/
theorem getBootVars_exact_names_empty_for_unset (e : Env) (names : List String) :
    ((GetBootVars e names).map Prod.fst = names) ∧
    (∀ n ∈ names, (n, e.get n) ∈ GetBootVars e names) ∧
    (∀ n v, lookupVar e.vars n = some v → e.get n = v) ∧
    (∀ n, lookupVar e.vars n = none → e.get n = "") := by
  refine ⟨?_, ?_, ?_, ?_⟩
  · simp [GetBootVars, Function.comp_def]
  · intro n hn
    simpa [GetBootVars] using List.mem_map_of_mem (fun n => (n, e.get n)) hn
  · intro n v h
    simp [Env.get, h]
  · intro n h
    simp [Env.get, h]

/-- Witness for C6: an unset name is returned bound to the empty string. -/
theorem getBootVars_exact_names_empty_for_unset_witness :
    ("snap_mode", Env.get ⟨[]⟩ "snap_mode") ∈ GetBootVars ⟨[]⟩ ["snap_mode"] :=
  (getBootVars_exact_names_empty_for_unset ⟨[]⟩ ["snap_mode"]).2.1
    "snap_mode" (by simp)

/-! ## InstallBootConfig -/

/-- The filesystem actions `InstallBootConfig` can perform, in order. The
flag on `createEnvFile` records whether the variant's `createEnv` passes the
no-redundant-env flag (`ubootenv.CreateWithFlags` with `OpenNoRedundEnv`
for the non-redundant variant, plain `ubootenv.Create` otherwise). -/
inductive FsAction
  | stat (path : String)
  | mkdirAll (path : String)
  | createEnvFile (path : String) (size : Nat) (noRedundFlag : Bool)
  | saveEnv (path : String)
  | genericInstall (src : String) (dst : String)
deriving DecidableEq, Repr

/-- Whether an action mutates the filesystem (everything except `stat`). -/
def FsAction.isMutation : FsAction → Bool
  | .stat _ => false
  | _ => true

/-- The outcomes of the external I/O calls that `InstallBootConfig` makes:
the gadget file stat (error, or the file size), directory creation, store
creation, the store save, and the generic installer. -/
structure FsWorld where
  statRes : Except String Nat
  mkdirRes : Except String Unit
  createRes : Except String Unit
  saveRes : Except String Unit
  genericRes : Except String Unit
deriving Repr

/-- The Go condition `blOpts != nil && blOpts.Role == RoleRecovery`. -/
def blOptsIsRecovery : Option Options → Bool
  | none => false
  | some o => o.Role == BlRole.recovery

/-- The outcome of `uboot.InstallBootConfig`: the Go return value, the
ordered filesystem actions performed, and the facade's path state
afterwards. `none` models the panic of `dir()` on an empty rootdir. -/
def InstallBootConfig (v : Variant) (u : ubootBase) (gadgetDir : String)
    (blOpts : Option Options) (w : FsWorld) :
    Option (Except String Unit × List FsAction × ubootBase) :=
  let gadgetFile := goJoin [gadgetDir, v.name ++ ".conf"]
  match w.statRes with
  | .error e => some (.error e, [.stat gadgetFile], u)
  | .ok size =>
    if size = 0 then
      let u' := v.processBlOpts u blOpts
      match u'.envFile with
      | none => none
      | some ef =>
        match w.mkdirRes with
        | .error e =>
          some (.error e, [.stat gadgetFile, .mkdirAll (goDir ef)], u')
        | .ok _ =>
          match w.createRes with
          | .error e =>
            some (.error e,
              [.stat gadgetFile, .mkdirAll (goDir ef),
                .createEnvFile ef 4096 (v == .noredund)], u')
          | .ok _ =>
            -- the source returns nil both when Save fails and when it
            -- succeeds (`if err := env.Save(); err != nil { return nil }`)
            match w.saveRes with
            | .error _ =>
              some (.ok (),
                [.stat gadgetFile, .mkdirAll (goDir ef),
                  .createEnvFile ef 4096 (v == .noredund), .saveEnv ef], u')
            | .ok _ =>
              some (.ok (),
                [.stat gadgetFile, .mkdirAll (goDir ef),
                  .createEnvFile ef 4096 (v == .noredund), .saveEnv ef], u')
    else
      let u2 := v.setDefaults u
      if blOptsIsRecovery blOpts then
        some (.error "non-empty uboot.env not supported on UC20+ yet",
          [.stat gadgetFile], u2)
      else
        match u2.envFile with
        | none => none
        | some systemFile =>
          some (w.genericRes.map fun _ => (),
            [.stat gadgetFile, .genericInstall gadgetFile systemFile], u2)

/-- CLAIM C3. On a zero-length gadget config file with directory creation
and store creation succeeding, `InstallBootConfig` re-applies the option
processing, creates the target directory, creates a 4096-byte store at the
resolved environment file via the variant's create call, saves it, and its
action list contains no generic-installer invocation (no gadget content is
copied). -/
theorem installBootConfig_empty_file_creates_store
    (v : Variant) (u : ubootBase) (gadgetDir : String) (blOpts : Option Options)
    (w : FsWorld) (hroot : u.rootdir ≠ "") (hstat : w.statRes = .ok 0)
    (hmk : w.mkdirRes = .ok ()) (hcr : w.createRes = .ok ()) :
    ∃ ef, (v.processBlOpts u blOpts).envFile = some ef ∧
      InstallBootConfig v u gadgetDir blOpts w =
        some (.ok (),
          [.stat (goJoin [gadgetDir, v.name ++ ".conf"]), .mkdirAll (goDir ef),
            .createEnvFile ef 4096 (v == .noredund), .saveEnv ef],
          v.processBlOpts u blOpts) ∧
      (∀ s d, FsAction.genericInstall s d ∉
        [FsAction.stat (goJoin [gadgetDir, v.name ++ ".conf"]),
          .mkdirAll (goDir ef), .createEnvFile ef 4096 (v == .noredund),
          .saveEnv ef]) := by
  have hroot' : (v.processBlOpts u blOpts).rootdir = u.rootdir := by
    cases v <;> rcases blOpts with _ | ⟨role, nsb⟩ <;>
      first
        | rfl
        | (cases role <;> cases nsb <;> rfl)
  refine ⟨goJoin [goJoin [(v.processBlOpts u blOpts).rootdir,
    (v.processBlOpts u blOpts).basedir],
    (v.processBlOpts u blOpts).ubootEnvFileName], ?_, ?_, ?_⟩
  · simp [ubootBase.envFile, ubootBase.dir, hroot' ▸ hroot]
  · rcases w with ⟨ws, wm, wc, wsv, wg⟩
    simp only at hstat hmk hcr
    subst hstat; subst hmk; subst hcr
    simp only [InstallBootConfig, ubootBase.envFile, ubootBase.dir,
      hroot' ▸ hroot, if_neg (hroot' ▸ hroot), if_pos rfl]
    cases wsv <;> rfl
  · intro s d
    simp

/-- Witness for C3 at a concrete facade, gadget dir, and world. -/
theorem installBootConfig_empty_file_creates_store_witness :
    ∃ ef, ((Variant.redund).processBlOpts
        ⟨"/r", "/boot/uboot/", "uboot.env"⟩ none).envFile = some ef ∧
      InstallBootConfig .redund ⟨"/r", "/boot/uboot/", "uboot.env"⟩ "/gadget"
          none ⟨.ok 0, .ok (), .ok (), .ok (), .ok ()⟩ =
        some (.ok (),
          [.stat (goJoin ["/gadget", (Variant.redund).name ++ ".conf"]),
            .mkdirAll (goDir ef),
            .createEnvFile ef 4096 (Variant.redund == .noredund), .saveEnv ef],
          (Variant.redund).processBlOpts
            ⟨"/r", "/boot/uboot/", "uboot.env"⟩ none) ∧
      (∀ s d, FsAction.genericInstall s d ∉
        [FsAction.stat (goJoin ["/gadget", (Variant.redund).name ++ ".conf"]),
          .mkdirAll (goDir ef),
          .createEnvFile ef 4096 (Variant.redund == .noredund),
          .saveEnv ef]) :=
  installBootConfig_empty_file_creates_store .redund
    ⟨"/r", "/boot/uboot/", "uboot.env"⟩ "/gadget" none
    ⟨.ok 0, .ok (), .ok (), .ok (), .ok ()⟩ (by decide) rfl rfl rfl

/-- CLAIM C4 (demonstrating the code bug). In the zero-length-gadget-file
path, directory-creation and store-creation errors do propagate, but a
failure of the immediate save of the freshly created store does not: the
source's Save error branch returns nil, so `InstallBootConfig` reports
success even though the persist failed. -/
theorem installBootConfig_swallows_save_error :
    ((InstallBootConfig .redund ⟨"/r", "/boot/uboot/", "uboot.env"⟩ "/gadget"
        none ⟨.ok 0, .error "permission denied", .ok (), .ok (), .ok ()⟩).map
      Prod.fst = some (.error "permission denied")) ∧
    ((InstallBootConfig .redund ⟨"/r", "/boot/uboot/", "uboot.env"⟩ "/gadget"
        none ⟨.ok 0, .ok (), .error "no space left on device", .ok (),
          .ok ()⟩).map
      Prod.fst = some (.error "no space left on device")) ∧
    ((InstallBootConfig .redund ⟨"/r", "/boot/uboot/", "uboot.env"⟩ "/gadget"
        none ⟨.ok 0, .ok (), .ok (), .error "no space left on device",
          .ok ()⟩).map
      Prod.fst = some (.ok ())) :=
  ⟨rfl, rfl, rfl⟩

/-- CLAIM C5. On a non-empty gadget config file with the recovery role,
`InstallBootConfig` returns the distinct "not supported" error after having
performed only the stat of the gadget file: no filesystem mutation happens,
no file is created or written, and the generic installer is not invoked. -/
theorem installBootConfig_nonempty_recovery_error
    (v : Variant) (u : ubootBase) (gadgetDir : String) (blOpts : Option Options)
    (w : FsWorld) (n : Nat) (hstat : w.statRes = .ok n) (hn : n ≠ 0)
    (hrec : blOptsIsRecovery blOpts = true) :
    InstallBootConfig v u gadgetDir blOpts w =
      some (.error "non-empty uboot.env not supported on UC20+ yet",
        [.stat (goJoin [gadgetDir, v.name ++ ".conf"])], v.setDefaults u) ∧
    ([FsAction.stat (goJoin [gadgetDir, v.name ++ ".conf"])].all
        fun a => !a.isMutation) = true := by
  rcases w with ⟨ws, wm, wc, wsv, wg⟩
  simp only at hstat
  subst hstat
  constructor
  · simp [InstallBootConfig, hn, hrec]
  · simp [FsAction.isMutation]

/-- Witness for C5 at a concrete facade, options, and world. -/
theorem installBootConfig_nonempty_recovery_error_witness :
    InstallBootConfig .redund ⟨"/r", "/boot/uboot/", "uboot.env"⟩ "/gadget"
        (some ⟨BlRole.recovery, false⟩) ⟨.ok 5, .ok (), .ok (), .ok (), .ok ()⟩ =
      some (.error "non-empty uboot.env not supported on UC20+ yet",
        [.stat (goJoin ["/gadget", (Variant.redund).name ++ ".conf"])],
        (Variant.redund).setDefaults ⟨"/r", "/boot/uboot/", "uboot.env"⟩) ∧
    ([FsAction.stat (goJoin ["/gadget", (Variant.redund).name ++ ".conf"])].all
        fun a => !a.isMutation) = true :=
  installBootConfig_nonempty_recovery_error .redund
    ⟨"/r", "/boot/uboot/", "uboot.env"⟩ "/gadget"
    (some ⟨BlRole.recovery, false⟩) ⟨.ok 5, .ok (), .ok (), .ok (), .ok ()⟩ 5
    rfl (by decide) rfl

/-- CLAIM C10. On a non-empty gadget config file with a non-recovery role,
`InstallBootConfig` unconditionally re-applies `setDefaults`, so whatever
basedir and filename the facade carried (for instance from construction-time
options) are discarded: the final state holds the variant's default basedir
and `uboot.env`, and the gadget content is delegated to the generic
installer targeting the variant's default environment path. -/
theorem installBootConfig_nonempty_resets_defaults
    (v : Variant) (u : ubootBase) (gadgetDir : String) (blOpts : Option Options)
    (w : FsWorld) (n : Nat) (hroot : u.rootdir ≠ "") (hstat : w.statRes = .ok n)
    (hn : n ≠ 0) (hrec : blOptsIsRecovery blOpts = false) :
    (v.setDefaults u).basedir = specDefaultBasedir v ∧
    (v.setDefaults u).ubootEnvFileName = "uboot.env" ∧
    InstallBootConfig v u gadgetDir blOpts w =
      some (w.genericRes.map fun _ => (),
        [.stat (goJoin [gadgetDir, v.name ++ ".conf"]),
          .genericInstall (goJoin [gadgetDir, v.name ++ ".conf"])
            (goJoin [goJoin [u.rootdir, specDefaultBasedir v], "uboot.env"])],
        v.setDefaults u) := by
  have hsd : v.setDefaults u =
      { u with basedir := specDefaultBasedir v, ubootEnvFileName := "uboot.env" } := by
    cases v <;> rfl
  rcases w with ⟨ws, wm, wc, wsv, wg⟩
  simp only at hstat
  subst hstat
  refine ⟨by rw [hsd], by rw [hsd], ?_⟩
  simp [InstallBootConfig, hn, hrec, hsd, ubootBase.envFile, ubootBase.dir,
    hroot]

/-- Witness for C10: a facade constructed with RunMode options (which had
selected `boot.sel`) is reset to the defaults by the non-empty install
path. -/
theorem installBootConfig_nonempty_resets_defaults_witness :
    ((Variant.redund).setDefaults
        (newUboot "/r" (some ⟨BlRole.runMode, false⟩))).basedir =
      specDefaultBasedir .redund ∧
    ((Variant.redund).setDefaults
        (newUboot "/r" (some ⟨BlRole.runMode, false⟩))).ubootEnvFileName =
      "uboot.env" ∧
    InstallBootConfig .redund (newUboot "/r" (some ⟨BlRole.runMode, false⟩))
        "/gadget" (some ⟨BlRole.runMode, false⟩)
        ⟨.ok 10, .ok (), .ok (), .ok (), .ok ()⟩ =
      some ((FsWorld.mk (.ok 10) (.ok ()) (.ok ()) (.ok ())
          (.ok ())).genericRes.map fun _ => (),
        [.stat (goJoin ["/gadget", (Variant.redund).name ++ ".conf"]),
          .genericInstall (goJoin ["/gadget", (Variant.redund).name ++ ".conf"])
            (goJoin [goJoin [(newUboot "/r" (some ⟨BlRole.runMode, false⟩)).rootdir,
              specDefaultBasedir .redund], "uboot.env"])],
        (Variant.redund).setDefaults
          (newUboot "/r" (some ⟨BlRole.runMode, false⟩))) :=
  installBootConfig_nonempty_resets_defaults .redund
    (newUboot "/r" (some ⟨BlRole.runMode, false⟩)) "/gadget"
    (some ⟨BlRole.runMode, false⟩) ⟨.ok 10, .ok (), .ok (), .ok (), .ok ()⟩ 10
    (by decide) rfl (by decide) rfl

/-! ## Present -/

/-- Modelled from the spec: the outcome of the external existence check
(`osutil.FileExists`, not part of these sources) on a path — present,
absent, or the check itself failing; per the spec a failing check is
treated as "does not exist". -/
inductive FileCheck
  | present
  | absent
  | checkError
deriving DecidableEq, Repr

/-- Modelled from the spec: `osutil.FileExists` returns true exactly when
the file is present, treating a failing check as absence. -/
def fileExists (fs : String → FileCheck) (p : String) : Bool :=
  match fs p with
  | .present => true
  | .absent => false
  | .checkError => false

/-- `uboot.Present`: the existence of `envFile`, always paired with a nil
error (`none` in the second component); the outer `none` models the `dir()`
panic on an empty rootdir. -/
def Present (u : ubootBase) (fs : String → FileCheck) :
    Option (Bool × Option String) :=
  u.envFile.map fun ef => (fileExists fs ef, none)

/-- CLAIM C7. `Present` returns true exactly when the environment file is
present on disk and always returns a nil error; a failing existence check is
reported as "does not exist" rather than surfaced. -/
theorem present_iff_envFile_exists (u : ubootBase) (fs : String → FileCheck)
    (hroot : u.rootdir ≠ "") :
    ∃ ef, u.envFile = some ef ∧
      Present u fs = some (fileExists fs ef, none) ∧
      (fileExists fs ef = true ↔ fs ef = .present) := by
  refine ⟨goJoin [goJoin [u.rootdir, u.basedir], u.ubootEnvFileName],
    ?_, ?_, ?_⟩
  · simp [ubootBase.envFile, ubootBase.dir, hroot]
  · simp [Present, ubootBase.envFile, ubootBase.dir, hroot]
  · cases h : fs (goJoin [goJoin [u.rootdir, u.basedir], u.ubootEnvFileName]) <;>
      simp [fileExists, h]

/-- Witness for C7 under a filesystem whose existence check errors. -/
theorem present_iff_envFile_exists_witness :
    ∃ ef, (ubootBase.mk "/r" "/boot/uboot/" "uboot.env").envFile = some ef ∧
      Present ⟨"/r", "/boot/uboot/", "uboot.env"⟩ (fun _ => .checkError) =
        some (fileExists (fun _ => .checkError) ef, none) ∧
      (fileExists (fun _ => .checkError) ef = true ↔
        (fun _ => FileCheck.checkError) ef = .present) :=
  present_iff_envFile_exists ⟨"/r", "/boot/uboot/", "uboot.env"⟩
    (fun _ => .checkError) (by decide)

/-! ## Kernel asset extraction -/

/-- `uboot.ExtractRecoveryKernelAssets`: the empty recovery system dir is
rejected up front; otherwise the result is the extraction request delegated
to the external helper — the destination directory and the fixed asset
set. -/
def ExtractRecoveryKernelAssets (u : ubootBase) (recoverySystemDir : String) :
    Except String (String × List String) :=
  if recoverySystemDir = "" then
    .error "internal error: recoverySystemDir unset"
  else
    .ok (goJoin [u.rootDir, recoverySystemDir, "kernel"],
      ["kernel.img", "initrd.img", "dtbs/*"])

/-- CLAIM C8. With an empty recoverySystemDir, `ExtractRecoveryKernelAssets`
fails with the internal-error message before requesting any filesystem
operation; with a non-empty one it requests extraction of exactly
kernel.img, initrd.img and dtbs/* into rootDir/recoverySystemDir/kernel. -/
theorem extractRecoveryKernelAssets_guard (u : ubootBase) (d : String) :
    (ExtractRecoveryKernelAssets u "" =
      .error "internal error: recoverySystemDir unset") ∧
    (d ≠ "" → ExtractRecoveryKernelAssets u d =
      .ok (goJoin [u.rootDir, d, "kernel"],
        ["kernel.img", "initrd.img", "dtbs/*"])) := by
  refine ⟨rfl, fun hd => ?_⟩
  simp [ExtractRecoveryKernelAssets, hd]

/-- Witness for C8 at a concrete recovery system directory. -/
theorem extractRecoveryKernelAssets_guard_witness :
    (ExtractRecoveryKernelAssets ⟨"/r", "", ""⟩ "" =
      .error "internal error: recoverySystemDir unset") ∧
    ExtractRecoveryKernelAssets ⟨"/r", "", ""⟩ "systems/20201116" =
      .ok (goJoin [(ubootBase.mk "/r" "" "").rootDir, "systems/20201116",
        "kernel"], ["kernel.img", "initrd.img", "dtbs/*"]) :=
  ⟨(extractRecoveryKernelAssets_guard ⟨"/r", "", ""⟩ "systems/20201116").1,
    (extractRecoveryKernelAssets_guard ⟨"/r", "", ""⟩ "systems/20201116").2
      (by decide)⟩

/-- CLAIM C9. `dir` aborts (modelled as `none`) exactly when rootdir is
empty, and so does `envFile`; with a non-empty rootdir, `dir` is the join of
rootdir and basedir and `envFile` the join of the directory and the
environment file name, with no abort. -/
theorem dir_panics_iff_empty_rootdir (u : ubootBase) :
    (u.rootdir = "" → u.dir = none ∧ u.envFile = none) ∧
    (u.rootdir ≠ "" →
      u.dir = some (goJoin [u.rootdir, u.basedir]) ∧
      u.envFile =
        some (goJoin [goJoin [u.rootdir, u.basedir], u.ubootEnvFileName])) := by
  constructor
  · intro h
    simp [ubootBase.dir, ubootBase.envFile, h]
  · intro h
    simp [ubootBase.dir, ubootBase.envFile, h]

/-- Witness for C9: the empty rootdir aborts, a non-empty one resolves. -/
theorem dir_panics_iff_empty_rootdir_witness :
    ((ubootBase.mk "" "/boot/uboot/" "uboot.env").dir = none ∧
      (ubootBase.mk "" "/boot/uboot/" "uboot.env").envFile = none) ∧
    ((ubootBase.mk "/r" "/boot/uboot/" "uboot.env").dir =
        some (goJoin ["/r", "/boot/uboot/"]) ∧
      (ubootBase.mk "/r" "/boot/uboot/" "uboot.env").envFile =
        some (goJoin [goJoin ["/r", "/boot/uboot/"], "uboot.env"])) :=
  ⟨(dir_panics_iff_empty_rootdir ⟨"", "/boot/uboot/", "uboot.env"⟩).1 rfl,
    (dir_panics_iff_empty_rootdir ⟨"/r", "/boot/uboot/", "uboot.env"⟩).2
      (by decide)⟩

end Uboot
